import Mathlib

/-!
Verification development for the electroplating calculator repository.

The TypeScript sources are shallowly embedded:

* JavaScript strings are modelled as `List Char` (`Str`), JavaScript numbers
  as exact rationals `ℚ`; a possibly-NaN number is `Option ℚ` (`JsNum`) with
  `none` standing for NaN (and for the other non-finite values, which no
  claim distinguishes from NaN).
* `Math.sqrt` is `Real.sqrt`, so surface areas live in `ℝ`.
* Fallible code (thrown `RangeError` / `TypeError`) returns `Option`.
* Built-in string/number routines used by the sources (`Number`,
  `parseFloat`, `parseInt`, `split`, `trim`, `padStart`, `toString`) are
  modelled explicitly below, restricted to the plain decimal simple forms the
  repository feeds them (no hex literals, no Infinity literal).
-/

/-- JavaScript strings, modelled as lists of characters. -/
abbrev Str := List Char

/-- A JavaScript number that may be NaN: `none` is NaN / non-finite. -/
abbrev JsNum := Option ℚ

/-- Whitespace test for the characters relevant here (space, tab, LF, CR). -/
def isWSChar (c : Char) : Bool :=
  c = ' ' || c = '\t' || c = '\n' || c = '\r'

/-- Decimal digit test on code points, `'0'` (48) through `'9'` (57). -/
def isDigitC (c : Char) : Bool :=
  decide (48 ≤ c.toNat ∧ c.toNat ≤ 57)

/-- Model of `String.prototype.trim`. -/
def trimWS (s : Str) : Str :=
  ((s.dropWhile isWSChar).reverse.dropWhile isWSChar).reverse

/-- Map to lower case, modelling `String.prototype.toLowerCase`. -/
def toLowerStr (s : Str) : Str := s.map Char.toLower

/-- Model of `String.prototype.split` with a single-character separator. -/
def splitChar (sep : Char) : Str → List Str
  | [] => [[]]
  | c :: rest =>
    match splitChar sep rest with
    | [] => [[]]
    | h :: t => if c = sep then [] :: h :: t else (c :: h) :: t

/-- Character scan behind `splitWS`: the current field (reversed) and
whether the previous character was whitespace (so a run emits only one
field boundary). -/
def splitWSAux : Str → Str → Bool → List Str
  | [], acc, _ => [acc.reverse]
  | c :: rest, acc, prevWS =>
    if isWSChar c then
      if prevWS then splitWSAux rest acc true
      else acc.reverse :: splitWSAux rest [] true
    else splitWSAux rest (c :: acc) false

/-- Model of `String.prototype.split` on the regular expression of one or
more whitespace characters: fields between maximal whitespace runs, with an
empty field at an edge that starts or ends with whitespace. -/
def splitWS (s : Str) : List Str := splitWSAux s [] false

/-- Numeric value of a digit string, most significant first; the fold the
decimal parsers below share. -/
def digitsToNat (s : Str) : ℕ :=
  s.foldl (fun acc c => 10 * acc + (c.toNat - 48)) 0

/-- The character of a decimal digit. -/
def digitChar (d : ℕ) : Char := Char.ofNat (48 + d)

/-- Decimal rendering of a natural number, modelling
`Number.prototype.toString` on a nonnegative integer. -/
def natToChars (n : ℕ) : Str :=
  if _h : n < 10 then [digitChar n]
  else natToChars (n / 10) ++ [digitChar (n % 10)]
termination_by n
decreasing_by exact Nat.div_lt_self (by omega) (by norm_num)

/-- Model of `padStart(2, \x27 0 \x27)` as the sources use it. -/
def padStart2 (s : Str) : Str :=
  if s.length < 2 then List.replicate (2 - s.length) '0' ++ s else s

/-- Split an optional fractional part: on a string starting with a dot,
the digits after the dot and the remainder; otherwise no fraction. -/
def fracSplit (r : Str) : Str × Str :=
  match r with
  | [] => ([], [])
  | c :: rest =>
    if c = '.' then (rest.takeWhile isDigitC, rest.dropWhile isDigitC) else ([], r)

/-- Exponent tail of a strict `Number` parse: the whole remainder after the
`e` must be an optionally signed digit string. -/
def jsNumAfterE (s : Str) : Option ℤ :=
  match s with
  | [] => none
  | c :: r =>
    if c = '+' then
      if r ≠ [] ∧ r.all isDigitC then some (digitsToNat r) else none
    else if c = '-' then
      if r ≠ [] ∧ r.all isDigitC then some (-(digitsToNat r : ℤ)) else none
    else
      if (c :: r).all isDigitC then some (digitsToNat (c :: r)) else none

/-- Unsigned part of a strict `Number` parse: digits with an optional
fraction and an optional exponent, consuming the whole string. -/
def jsNumUnsigned (s : Str) : Option ℚ :=
  let ip := s.takeWhile isDigitC
  let r1 := s.dropWhile isDigitC
  let fr := fracSplit r1
  if ip = [] ∧ fr.1 = [] then none
  else
    let mant : ℚ := (digitsToNat ip : ℚ) + (digitsToNat fr.1 : ℚ) / 10 ^ fr.1.length
    match fr.2 with
    | [] => some mant
    | c :: rest =>
      if c = 'e' ∨ c = 'E' then (jsNumAfterE rest).map (fun k => mant * 10 ^ k)
      else none

/-- Optionally signed strict decimal numeral. -/
def jsNumSigned (s : Str) : Option ℚ :=
  match s with
  | [] => jsNumUnsigned []
  | c :: r =>
    if c = '-' then (jsNumUnsigned r).map Neg.neg
    else if c = '+' then jsNumUnsigned r
    else jsNumUnsigned (c :: r)

/-- Model of the `Number` conversion on strings: trimmed empty input is 0,
otherwise the whole trimmed string must be a signed decimal numeral;
`none` is NaN. -/
def jsNumber (s : Str) : Option ℚ :=
  let t := trimWS s
  if t = [] then some 0 else jsNumSigned t

/-- Longest leading digit run, as a value; `none` when there is none. -/
def pfDigits (s : Str) : Option ℕ :=
  let ds := s.takeWhile isDigitC
  if ds = [] then none else some (digitsToNat ds)

/-- Exponent prefix for `parseFloat`: consumed only when an `e` with at
least one following digit (after an optional sign) is present. -/
def pfExponent (r : Str) : Option ℤ :=
  match r with
  | [] => none
  | c :: rest =>
    if c = 'e' ∨ c = 'E' then
      match rest with
      | [] => none
      | d :: rr =>
        if d = '-' then (pfDigits rr).map (fun n => -(n : ℤ))
        else if d = '+' then (pfDigits rr).map (fun n => (n : ℤ))
        else (pfDigits (d :: rr)).map (fun n => (n : ℤ))
    else none

/-- Unsigned part of a `parseFloat` parse: longest valid numeric prefix,
trailing garbage ignored. -/
def jsPFUnsigned (s : Str) : Option ℚ :=
  let ip := s.takeWhile isDigitC
  let r1 := s.dropWhile isDigitC
  let fr := fracSplit r1
  if ip = [] ∧ fr.1 = [] then none
  else
    let mant : ℚ := (digitsToNat ip : ℚ) + (digitsToNat fr.1 : ℚ) / 10 ^ fr.1.length
    some (mant * 10 ^ ((pfExponent fr.2).getD 0))

/-- Model of the global `parseFloat`: leading whitespace skipped, optional
sign, then the longest numeric prefix; `none` is NaN. -/
def jsParseFloat (s : Str) : Option ℚ :=
  match s.dropWhile isWSChar with
  | [] => none
  | c :: r =>
    if c = '-' then (jsPFUnsigned r).map Neg.neg
    else if c = '+' then jsPFUnsigned r
    else jsPFUnsigned (c :: r)

/-- Leading digit run of a `parseInt` parse. -/
def pIntDigits (s : Str) : Option ℤ :=
  let ds := s.takeWhile isDigitC
  if ds = [] then none else some (digitsToNat ds : ℤ)

/-- Model of `parseInt(s, 10)`: leading whitespace skipped, optional sign,
longest digit prefix; `none` is NaN. -/
def jsParseInt (s : Str) : Option ℤ :=
  match s.dropWhile isWSChar with
  | [] => none
  | c :: r =>
    if c = '-' then (pIntDigits r).map Neg.neg
    else if c = '+' then pIntDigits r
    else pIntDigits (c :: r)

/-- Model of `a || d` on an optional string: `null` and the empty string
are falsy and give the default. -/
def jsOr (a : Option Str) (d : Str) : Str :=
  match a with
  | none => d
  | some s => if s = [] then d else s

/-- NaN-propagating addition. -/
def jadd (a b : JsNum) : JsNum :=
  match a, b with
  | some x, some y => some (x + y)
  | _, _ => none

/-- NaN-propagating multiplication. -/
def jmul (a b : JsNum) : JsNum :=
  match a, b with
  | some x, some y => some (x * y)
  | _, _ => none

/-- The two plating materials of src/types. -/
inductive Material where
  | Copper
  | Nickel
deriving DecidableEq

/-- Faraday constants of src/utils/plating: Copper 270.5 s, Nickel 292.6 s. -/
def FARADAY_CONSTANTS : Material → ℚ
  | .Copper => 270.5
  | .Nickel => 292.6

/-- calculateTimeFromThickness: t = K * thickness / (currentDensity * efficiency). -/
def calculateTimeFromThickness (thickness_um currentDensity efficiency : ℚ)
    (material : Material) : ℚ :=
  FARADAY_CONSTANTS material * thickness_um / (currentDensity * efficiency)

/-- calculateThicknessFromTime: thickness = t * currentDensity * efficiency / K. -/
def calculateThicknessFromTime (time_seconds currentDensity efficiency : ℚ)
    (material : Material) : ℚ :=
  time_seconds * currentDensity * efficiency / FARADAY_CONSTANTS material

/-- formatTime of src/utils/plating, on the nonnegative integer seconds the
round-trip claim ranges over; `Math.floor` of a nonnegative integer quotient
is natural division. -/
def formatTime (seconds : ℕ) : Str :=
  padStart2 (natToChars (seconds / 3600)) ++
    ':' :: (padStart2 (natToChars (seconds % 3600 / 60)) ++
      ':' :: padStart2 (natToChars (seconds % 60)))

/-- parseTime of src/utils/plating: split on colons, convert each part with
`Number`, then combine according to the number of parts. -/
def parseTime (timeString : Str) : JsNum :=
  let parts := (splitChar ':' timeString).map jsNumber
  match parts with
  | [a, b, c] => jadd (jadd (jmul a (some 3600)) (jmul b (some 60))) c
  | [a, b] => jadd (jmul a (some 60)) b
  | [a] => a
  | _ => some 0

/-- The STL length units of src/types. -/
inductive STLUnit where
  | mm
  | cm
  | inch
deriving DecidableEq

/-- A 3-component exact coordinate vector. -/
abbrev Vec3 := ℚ × ℚ × ℚ

/-- Triangle of src/types: three vertices a, b, c. -/
structure Triangle where
  a : Vec3
  b : Vec3
  c : Vec3
deriving DecidableEq

/-- toMillimeters of src/utils/geometry on the declared unit type: the fixed
conversion table mm 1, cm 10, inch 25.4. -/
def toMillimeters (value : ℚ) (unit : STLUnit) : ℚ :=
  value * (match unit with
    | .mm => 1
    | .cm => 10
    | .inch => 25.4)

/-- The key string of each STLUnit member. -/
def stlUnitKey : STLUnit → Str
  | .mm => "mm".data
  | .cm => "cm".data
  | .inch => "inch".data

/-- The conversions record of toMillimeters as a JavaScript runtime lookup:
a property access on the fixed object, `none` for an absent key
(`undefined`). -/
def conversionsRuntime (unit : Str) : Option ℚ :=
  if unit = "mm".data then some 1
  else if unit = "cm".data then some 10
  else if unit = "inch".data then some 25.4
  else none

/-- toMillimeters under JavaScript runtime semantics, where the unit is an
arbitrary string: `value * conversions[unit]`, which is NaN (`none`) when
the lookup yields `undefined`. -/
def toMillimetersRuntime (value : ℚ) (unit : Str) : Option ℚ :=
  (conversionsRuntime unit).map (fun k => value * k)

/-- mm2ToDm2 of src/utils/geometry: divide by 10000. -/
noncomputable def mm2ToDm2 (mm2 : ℝ) : ℝ := mm2 / 10000

/-- The edge vector b - a of calculateTriangleArea. -/
def triBA (t : Triangle) : Vec3 :=
  (t.b.1 - t.a.1, t.b.2.1 - t.a.2.1, t.b.2.2 - t.a.2.2)

/-- The edge vector c - a of calculateTriangleArea. -/
def triCA (t : Triangle) : Vec3 :=
  (t.c.1 - t.a.1, t.c.2.1 - t.a.2.1, t.c.2.2 - t.a.2.2)

/-- The cross product computed inside calculateTriangleArea:
componentwise `(ba[1]ca[2] - ba[2]ca[1], ba[2]ca[0] - ba[0]ca[2],
ba[0]ca[1] - ba[1]ca[0])`. -/
def crossOf (ba ca : Vec3) : Vec3 :=
  (ba.2.1 * ca.2.2 - ba.2.2 * ca.2.1,
   ba.2.2 * ca.1 - ba.1 * ca.2.2,
   ba.1 * ca.2.1 - ba.2.1 * ca.1)

/-- calculateTriangleArea of src/utils/geometry: half the Euclidean
magnitude of the cross product of the two edge vectors.  The squares are
accumulated exactly in ℚ and the square root taken in ℝ. -/
noncomputable def calculateTriangleArea (t : Triangle) : ℝ :=
  let cr := crossOf (triBA t) (triCA t)
  0.5 * Real.sqrt ((cr.1 ^ 2 + cr.2.1 ^ 2 + cr.2.2 ^ 2 : ℚ) : ℝ)

/-- The converted triangle built inside calculateSurfaceArea: every
coordinate of every vertex through toMillimeters. -/
def convertTriangle (unit : STLUnit) (t : Triangle) : Triangle where
  a := (toMillimeters t.a.1 unit, toMillimeters t.a.2.1 unit, toMillimeters t.a.2.2 unit)
  b := (toMillimeters t.b.1 unit, toMillimeters t.b.2.1 unit, toMillimeters t.b.2.2 unit)
  c := (toMillimeters t.c.1 unit, toMillimeters t.c.2.1 unit, toMillimeters t.c.2.2 unit)

/-- calculateSurfaceArea of src/utils/geometry: sum of the converted
triangle areas, then mm squared to dm squared. -/
noncomputable def calculateSurfaceArea (triangles : List Triangle) (unit : STLUnit) : ℝ :=
  mm2ToDm2 ((triangles.map (fun t => calculateTriangleArea (convertTriangle unit t))).sum)

/-- A degenerate triangle in the sense of the specification: its vertices
are collinear (coincident vertices included). -/
def Degenerate (t : Triangle) : Prop :=
  Collinear ℚ ({t.a, t.b, t.c} : Set Vec3)

/-- A possibly-NaN coordinate vector, as parsers produce it. -/
abbrev JsVec3 := JsNum × JsNum × JsNum

/-- Triangle as produced by the runtime parsers: coordinates may be NaN. -/
structure JsTriangle where
  a : JsVec3
  b : JsVec3
  c : JsVec3
deriving DecidableEq

/-- A finite coordinate vector wrapped into the parser coordinate type. -/
def toJsVec (v : Vec3) : JsVec3 := (some v.1, some v.2.1, some v.2.2)

/-- One line of parseASCIISTL: the fold state is the emitted triangles so
far together with the 0, 1 or 2 pending finite vertices (the code resets
the pending buffer whenever a triangle completes or an endfacet line is
seen, so it never holds three). -/
def asciiLine (acc : List JsTriangle × List Vec3) (line : Str) : List JsTriangle × List Vec3 :=
  let trimmed := trimWS line
  if ("vertex".data).isPrefixOf trimmed then
    let parts := splitWS trimmed
    if 4 ≤ parts.length then
      match jsParseFloat (parts.getD 1 []), jsParseFloat (parts.getD 2 []),
          jsParseFloat (parts.getD 3 []) with
      | some x, some y, some z =>
        match acc.2 with
        | [v0, v1] => (acc.1 ++ [⟨toJsVec v0, toJsVec v1, toJsVec (x, y, z)⟩], [])
        | buf => (acc.1, buf ++ [(x, y, z)])
      | _, _, _ => acc
    else acc
  else if ("endfacet".data).isPrefixOf trimmed then (acc.1, [])
  else acc

/-- parseASCIISTL of src/utils/stlParser: split into lines and run the
vertex state machine; a partial trailing facet is dropped. -/
def parseASCIISTL (content : Str) : List JsTriangle :=
  ((splitChar '\n' content).foldl asciiLine ([], [])).1

/-- A raw buffer: one natural number below 256 per byte. -/
abbrev Bytes := List ℕ

/-- DataView.getUint32 little-endian; `none` is the thrown RangeError on an
out-of-bounds read. -/
def getUint32le (bs : Bytes) (off : ℕ) : Option ℕ :=
  if off + 4 ≤ bs.length then
    some (bs.getD off 0 + 256 * bs.getD (off + 1) 0 +
      65536 * bs.getD (off + 2) 0 + 16777216 * bs.getD (off + 3) 0)
  else none

/-- Exact value of an IEEE 754 binary32 bit pattern; `none` for NaN and the
infinities (exponent field 255). -/
def decodeFloat32 (u : ℕ) : Option ℚ :=
  let sign : ℕ := u / 2 ^ 31
  let ex : ℕ := u / 2 ^ 23 % 2 ^ 8
  let frac : ℕ := u % 2 ^ 23
  if ex = 255 then none
  else
    let mag : ℚ :=
      if ex = 0 then (frac : ℚ) * (2 : ℚ) ^ (-(149 : ℤ))
      else ((2 ^ 23 + frac : ℕ) : ℚ) * (2 : ℚ) ^ ((ex : ℤ) - 150)
    some (if sign = 1 then -mag else mag)

/-- DataView.getFloat32 little-endian: outer `none` is the thrown
RangeError, the inner value is NaN-aware. -/
def getFloat32le (bs : Bytes) (off : ℕ) : Option JsNum :=
  if off + 4 ≤ bs.length then
    some (decodeFloat32 (bs.getD off 0 + 256 * bs.getD (off + 1) 0 +
      65536 * bs.getD (off + 2) 0 + 16777216 * bs.getD (off + 3) 0))
  else none

/-- Three consecutive little-endian floats of one binary STL vertex. -/
def readVec3 (bs : Bytes) (off : ℕ) : Option JsVec3 := do
  let x ← getFloat32le bs off
  let y ← getFloat32le bs (off + 4)
  let z ← getFloat32le bs (off + 8)
  pure (x, y, z)

/-- The record loop of parseBinarySTL: 50-byte records, 12 bytes of normal
vector skipped, three vertices read, 2 attribute bytes skipped. -/
def readTris (bs : Bytes) : ℕ → ℕ → Option (List JsTriangle)
  | 0, _ => some []
  | n + 1, off => do
    let a ← readVec3 bs (off + 12)
    let b ← readVec3 bs (off + 24)
    let c ← readVec3 bs (off + 36)
    let rest ← readTris bs n (off + 50)
    pure (⟨a, b, c⟩ :: rest)

/-- parseBinarySTL of src/utils/stlParser: skip the 80-byte header, read
the 32-bit triangle count, then the records; `none` is a thrown
RangeError. -/
def parseBinarySTL (buffer : Bytes) : Option (List JsTriangle) := do
  let numTriangles ← getUint32le buffer 80
  readTris buffer numTriangles 84

/-- The ASCII text decoder applied to a buffer slice; bytes are mapped to
their code points (the browser maps bytes above 127 to a replacement
character, which no claim exercises). -/
def decodeAscii (bs : Bytes) : Str := bs.map Char.ofNat

/-- isASCIISTL of src/utils/stlParser: decode up to the first 100 bytes,
then require the trimmed lower-cased text to start with the solid keyword,
contain no null byte, and contain a newline. -/
def isASCIISTL (buffer : Bytes) : Bool :=
  let text := decodeAscii (buffer.take 100)
  ("solid".data).isPrefixOf (toLowerStr (trimWS text)) &&
    !(text.contains (Char.ofNat 0)) && text.contains '\n'

/-- A vertex element of a 3MF model file: the raw x, y, z attribute strings,
`none` when the attribute is absent. -/
structure Vertex3MF where
  x? : Option Str
  y? : Option Str
  z? : Option Str
deriving DecidableEq

/-- A triangle element of a 3MF model file: the raw v1, v2, v3 attribute
strings. -/
structure Tri3MF where
  v1? : Option Str
  v2? : Option Str
  v3? : Option Str
deriving DecidableEq

/-- A mesh element: its vertices and triangles child elements, each absent
when the corresponding querySelector finds nothing. -/
structure Mesh3MF where
  vertices? : Option (List Vertex3MF)
  triangles? : Option (List Tri3MF)
deriving DecidableEq

/-- An object element: its mesh child and its raw transform attribute. -/
structure Object3MF where
  mesh? : Option Mesh3MF
  transform? : Option Str
deriving DecidableEq

/-- A parsed 3MF model document, as the external ZIP and XML layers
(JSZip, DOMParser) deliver it to parse3MF: the unit attribute of the model
element and the object elements in document order. -/
structure Model3MF where
  unit? : Option Str
  objects : List Object3MF
deriving DecidableEq

/-- The unitScales record of parse3MF, as a lookup. -/
def unitScales (unit : Str) : Option ℚ :=
  if unit = "millimeter".data then some 1
  else if unit = "micron".data then some 0.001
  else if unit = "centimeter".data then some 10
  else if unit = "inch".data then some 25.4
  else if unit = "foot".data then some 304.8
  else if unit = "meter".data then some 1000
  else none

/-- One coordinate of a 3MF vertex: `parseFloat(attr || "0")`. -/
def vertexCoord (attr : Option Str) : JsNum :=
  jsParseFloat (jsOr attr "0".data)

/-- The vertex decode loop body of parse3MF. -/
def decodeVertex (v : Vertex3MF) : JsVec3 :=
  (vertexCoord v.x?, vertexCoord v.y?, vertexCoord v.z?)

/-- applyTransform of src/utils/threeMFParser: the 12-value row-major 3x4
affine map; every output coordinate reads all three inputs, so one NaN
input coordinate makes all three outputs NaN. -/
def applyTransform (matrix : List ℚ) (point : JsVec3) : JsVec3 :=
  if matrix.length ≠ 12 then point
  else
    match point with
    | (some x, some y, some z) =>
      let g := fun j => matrix.getD j 0
      (some (g 0 * x + g 1 * y + g 2 * z + g 3),
       some (g 4 * x + g 5 * y + g 6 * z + g 7),
       some (g 8 * x + g 9 * y + g 10 * z + g 11))
    | _ => (none, none, none)

/-- A reference held by an emitted triangle: either a pointer into some
object's shared vertex array (the aliasing the JavaScript code creates by
pushing `vertices[v1]` itself), or a fresh array owned by this triangle
alone (what applyTransform returns). -/
inductive VRef where
  | shared (obj idx : ℕ)
  | fresh (v : JsVec3)
deriving DecidableEq

/-- A triangle of vertex references. -/
structure TriRef where
  a : VRef
  b : VRef
  c : VRef
deriving DecidableEq

/-- The heap of per-object vertex arrays. -/
abbrev Store := List (List JsVec3)

/-- Read a reference against the current heap. -/
def derefV (store : Store) : VRef → JsVec3
  | .shared o i => (store.getD o []).getD i (none, none, none)
  | .fresh v => v

/-- Index check of the triangle loop: `v >= 0 && v < n`, false for NaN. -/
def idxOk (v : Option ℤ) (n : ℕ) : Bool :=
  match v with
  | none => false
  | some i => decide (0 ≤ i) && decide (i < (n : ℤ))

/-- Natural-number index of a checked value. -/
def toNatIdx (v : Option ℤ) : ℕ :=
  match v with
  | some i => i.toNat
  | none => 0

/-- The triangle decode loop body of parse3MF: parse the three index
attributes with `parseInt(attr || "0", 10)` and emit a shared-reference
triangle when all three are in bounds; otherwise skip the element. -/
def triRefOf (oi n : ℕ) (te : Tri3MF) : Option TriRef :=
  let v1 := jsParseInt (jsOr te.v1? "0".data)
  let v2 := jsParseInt (jsOr te.v2? "0".data)
  let v3 := jsParseInt (jsOr te.v3? "0".data)
  if idxOk v1 n && idxOk v2 n && idxOk v3 n then
    some ⟨.shared oi (toNatIdx v1), .shared oi (toNatIdx v2), .shared oi (toNatIdx v3)⟩
  else none

/-- The transform loop of parse3MF: for every triangle index at or beyond
the start index, replace each vertex reference by a fresh transformed
array (the assignments `t.a = applyTransform(t.a, m)` and so on). -/
def transformRange (m : List ℚ) (store : Store) (tris : List TriRef) (start : ℕ) : List TriRef :=
  tris.mapIdx (fun i t =>
    if start ≤ i then
      ⟨.fresh (applyTransform m (derefV store t.a)),
       .fresh (applyTransform m (derefV store t.b)),
       .fresh (applyTransform m (derefV store t.c))⟩
    else t)

/-- The running state of the object loop. -/
structure PState where
  store : Store
  tris : List TriRef
deriving DecidableEq

/-- One iteration of the object loop of parse3MF.  The start index of the
transform loop is `triangles.length - triangleElements.length`, counting
the skipped elements too; when that is negative the JavaScript loop reads
`triangles[i]` as `undefined` and throws (`none`). -/
def processObject (st : PState) (ob : Object3MF) : Option PState :=
  match ob.mesh? with
  | none => some st
  | some mesh =>
    match mesh.vertices? with
    | none => some st
    | some vtxElems =>
      let verts := vtxElems.map decodeVertex
      let oi := st.store.length
      let store1 := st.store ++ [verts]
      match mesh.triangles? with
      | none => some ⟨store1, st.tris⟩
      | some triElems =>
        let tris1 := st.tris ++ triElems.filterMap (triRefOf oi verts.length)
        match ob.transform? with
        | none => some ⟨store1, tris1⟩
        | some tstr =>
          let matrixValues := ((splitWS tstr).map jsParseFloat).filterMap id
          if matrixValues.length = 12 then
            if triElems.length ≤ tris1.length then
              some ⟨store1, transformRange matrixValues store1 tris1
                (tris1.length - triElems.length)⟩
            else none
          else some ⟨store1, tris1⟩

/-- One in-place coordinate scaling, `a[i] *= unitScale`. -/
def scaleJ (k : ℚ) : JsNum → JsNum := Option.map (fun x => x * k)

/-- Scale all three coordinates of one vertex array in place. -/
def scaleVec (k : ℚ) (v : JsVec3) : JsVec3 :=
  (scaleJ k v.1, scaleJ k v.2.1, scaleJ k v.2.2)

/-- Replace the element at an index of a list, identity out of range. -/
def listModify (l : List α) (i : ℕ) (f : α → α) : List α :=
  match l, i with
  | [], _ => []
  | x :: xs, 0 => f x :: xs
  | x :: xs, j + 1 => x :: listModify xs j f

/-- Scale the vertex array behind one reference: a shared reference
mutates the heap cell (so a cell referenced several times is scaled once
per referencing field), a fresh array is scaled privately. -/
def scaleRef (k : ℚ) (store : Store) : VRef → Store × VRef
  | .fresh v => (store, .fresh (scaleVec k v))
  | .shared o i => (listModify store o (fun arr => listModify arr i (scaleVec k)), .shared o i)

/-- The three field scalings of one triangle, in source order a, b, c. -/
def scaleTri (k : ℚ) (store : Store) (t : TriRef) : Store × TriRef :=
  let pa := scaleRef k store t.a
  let pb := scaleRef k pa.1 t.b
  let pc := scaleRef k pb.1 t.c
  (pc.1, ⟨pa.2, pb.2, pc.2⟩)

/-- The unit scaling loop of parse3MF over all emitted triangles. -/
def scaleAll (k : ℚ) (store : Store) : List TriRef → Store × List TriRef
  | [] => (store, [])
  | t :: ts =>
    let p := scaleTri k store t
    let q := scaleAll k p.1 ts
    (q.1, p.2 :: q.2)

/-- parse3MF of src/utils/threeMFParser, from the structured model document
the external ZIP and XML layers produce: decode every object's mesh,
apply per-object transforms, then scale to millimeters when the document
unit scale differs from 1.  `none` is a thrown error.  The returned
unitScale field of the source is the constant 1 and is omitted. -/
def parse3MF (doc : Model3MF) : Option (List JsTriangle) := do
  let unit := jsOr doc.unit? "millimeter".data
  let unitScale := (unitScales (toLowerStr unit)).getD 1
  let st ← doc.objects.foldlM processObject ⟨[], []⟩
  let final := if unitScale ≠ 1 then scaleAll unitScale st.store st.tris else (st.store, st.tris)
  pure (final.2.map (fun t =>
    ⟨derefV final.1 t.a, derefV final.1 t.b, derefV final.1 t.c⟩))

/-- FileData of src/types: a filename with its computed surface area; the
area is NaN-aware because the source does not guard the sum. -/
structure FileData where
  filename : Str
  surfaceArea_dm2 : Option ℝ

/-- An input file of the drop zone: its name, its raw bytes, and the
outcome of the external ZIP and XML decode of those bytes (JSZip and
DOMParser are third-party layers; their result is a modelling parameter,
`Except.error` standing for a thrown no-model-found error). -/
structure JsFile where
  name : Str
  buffer : Bytes
  doc : Except Unit Model3MF

/-- A parser triangle all of whose coordinates are finite. -/
def finiteTri? (t : JsTriangle) : Option Triangle :=
  match t.a, t.b, t.c with
  | (some ax, some ay, some az), (some bx, some by0, some bz), (some cx, some cy, some cz) =>
    some ⟨(ax, ay, az), (bx, by0, bz), (cx, cy, cz)⟩
  | _, _, _ => none

/-- calculateSurfaceArea as the drop zone calls it, on parser triangles:
a NaN coordinate anywhere propagates through the float cross products and
the running sum, so the result is NaN (`none`) exactly when some
coordinate is NaN, and otherwise the exact sum. -/
noncomputable def jsSurfaceArea (ts : List JsTriangle) (unit : STLUnit) : Option ℝ :=
  (ts.mapM finiteTri?).map (fun l => calculateSurfaceArea l unit)

/-- The .stl branch of processFile: sniff the format, then parse; `none`
is a thrown RangeError from the binary parser. -/
def stlTriangles (buffer : Bytes) : Option (List JsTriangle) :=
  if isASCIISTL buffer then some (parseASCIISTL (decodeAscii buffer))
  else parseBinarySTL buffer

/-- processFile of src/components/FileDropZone: dispatch on the lower-cased
filename extension, fail (`none`, the caught exception path) on an
unsupported type, a parser throw, a missing 3MF model, or an empty
triangle list, and otherwise return the FileData. -/
noncomputable def processFile (unit : STLUnit) (f : JsFile) : Option FileData :=
  if (".stl".data).isSuffixOf (toLowerStr f.name) then
    match stlTriangles f.buffer with
    | none => none
    | some triangles =>
      if triangles.length = 0 then none
      else some ⟨f.name, jsSurfaceArea triangles unit⟩
  else if (".3mf".data).isSuffixOf (toLowerStr f.name) then
    match f.doc with
    | .error _ => none
    | .ok doc =>
      match parse3MF doc with
      | none => none
      | some triangles =>
        if triangles.length = 0 then none
        else some ⟨f.name, jsSurfaceArea triangles STLUnit.mm⟩
  else none

/-- The extension filter of handleFiles. -/
def validFile (f : JsFile) : Bool :=
  (".stl".data).isSuffixOf (toLowerStr f.name) ||
    (".3mf".data).isSuffixOf (toLowerStr f.name)

/-- handleFiles of src/components/FileDropZone: filter to the supported
extensions, alert and deliver nothing (`none`) when no file qualifies,
otherwise process every file and keep the non-null results. -/
noncomputable def handleFiles (unit : STLUnit) (files : List JsFile) : Option (List FileData) :=
  let validFiles := files.filter validFile
  if validFiles.length = 0 then none
  else some ((validFiles.map (processFile unit)).filterMap id)

/-- Shorthand for a present attribute string. -/
def someStr (s : String) : Option Str := some s.data

/-- Claim C3: for every material, current density and efficiency with
nonzero product, calculateTimeFromThickness and calculateThicknessFromTime
are mutual inverses, exactly, in both directions. -/
theorem plating_time_thickness_roundtrip (m : Material) (d e x t : ℚ)
    (h : d * e ≠ 0) :
    calculateThicknessFromTime (calculateTimeFromThickness x d e m) d e m = x ∧
    calculateTimeFromThickness (calculateThicknessFromTime t d e m) d e m = t := by
  have hK : FARADAY_CONSTANTS m ≠ 0 := by
    cases m <;> norm_num [FARADAY_CONSTANTS]
  have hd : d ≠ 0 := fun hd0 => h (by rw [hd0, zero_mul])
  have he : e ≠ 0 := fun he0 => h (by rw [he0, mul_zero])
  unfold calculateThicknessFromTime calculateTimeFromThickness
  constructor <;> (field_simp; ring)

/-- Witness for C3 at the worked example of the specification: Copper,
density 2 A per dm squared, efficiency 1, thickness 10 microns, time
1352.5 seconds. -/
theorem plating_time_thickness_roundtrip_witness :
    (2 : ℚ) * 1 ≠ 0 ∧
    (calculateThicknessFromTime (calculateTimeFromThickness 10 2 1 .Copper) 2 1 .Copper = 10 ∧
     calculateTimeFromThickness (calculateThicknessFromTime 1352.5 2 1 .Copper) 2 1 .Copper = 1352.5) :=
  ⟨by norm_num, plating_time_thickness_roundtrip .Copper 2 1 10 1352.5 (by norm_num)⟩

/-- Failing input for claim C1: a centimeter-unit document with one mesh of
a single vertex (1, 1, 1) and a single triangle element all three of whose
indices reference that vertex. -/
def c1doc : Model3MF :=
  ⟨someStr "centimeter",
   [⟨some ⟨some [⟨someStr "1", someStr "1", someStr "1"⟩],
          some [⟨someStr "0", someStr "0", someStr "0"⟩]⟩, none⟩]⟩

unseal Rat.mul Rat.add Rat.sub Rat.inv Rat.ofScientific in
theorem c1_eval_aux :
    parse3MF c1doc =
      some [⟨(some 1000, some 1000, some 1000), (some 1000, some 1000, some 1000),
        (some 1000, some 1000, some 1000)⟩] := by
  decide

/-- Claim C1 fails on the code: with unit scale 10, the single shared
vertex array is multiplied by the scale once per referencing triangle
field, so every emitted coordinate is 1 * 10 ^ 3 = 1000 rather than the
claimed once-scaled 10.  The second conjunct refutes the claim's
prediction of scaling exactly once. -/
theorem parse3MF_shared_vertex_scaled_per_reference :
    parse3MF c1doc =
      some [⟨(some 1000, some 1000, some 1000), (some 1000, some 1000, some 1000),
        (some 1000, some 1000, some 1000)⟩] ∧
    parse3MF c1doc ≠
      some [⟨(some 10, some 10, some 10), (some 10, some 10, some 10),
        (some 10, some 10, some 10)⟩] := by
  refine ⟨c1_eval_aux, ?_⟩
  rw [c1_eval_aux]
  intro hcontra
  have h2 := Option.some.inj hcontra
  simp only [List.cons.injEq] at h2
  have h3 := congrArg JsTriangle.a h2.1
  simp only [Prod.mk.injEq, Option.some.injEq] at h3
  exact absurd h3.1 (by norm_num)

/-- Failing input for claim C2: object A with vertex (1, 2, 3), one valid
triangle and no transform; then object B with vertex (5, 5, 5), a uniform
scale-by-2 transform, one valid triangle element and one out-of-range
triangle element (index 1 against a single vertex). -/
def c2doc : Model3MF :=
  ⟨none,
   [⟨some ⟨some [⟨someStr "1", someStr "2", someStr "3"⟩],
          some [⟨someStr "0", someStr "0", someStr "0"⟩]⟩, none⟩,
    ⟨some ⟨some [⟨someStr "5", someStr "5", someStr "5"⟩],
          some [⟨someStr "0", someStr "0", someStr "0"⟩,
                ⟨someStr "1", someStr "1", someStr "1"⟩]⟩,
     someStr "2 0 0 0 0 2 0 0 0 0 2 0"⟩]⟩

unseal Rat.mul Rat.add Rat.sub Rat.inv Rat.ofScientific in
theorem c2_eval_aux :
    parse3MF c2doc =
      some [⟨(some 2, some 4, some 6), (some 2, some 4, some 6), (some 2, some 4, some 6)⟩,
        ⟨(some 10, some 10, some 10), (some 10, some 10, some 10),
          (some 10, some 10, some 10)⟩] := by
  decide

/-- Claim C2 fails on the code: the transform start index subtracts the
count of triangle elements (2, including the skipped one) from the
emitted-so-far count (2 in total, only 1 of them from object B), so object
B's scale-by-2 transform is also applied to object A's triangle, which
becomes (2, 4, 6) instead of the untransformed (1, 2, 3); the second
conjunct refutes the claim's prediction. -/
theorem parse3MF_transform_leaks_to_previous_object :
    parse3MF c2doc =
      some [⟨(some 2, some 4, some 6), (some 2, some 4, some 6), (some 2, some 4, some 6)⟩,
        ⟨(some 10, some 10, some 10), (some 10, some 10, some 10),
          (some 10, some 10, some 10)⟩] ∧
    (parse3MF c2doc).map (fun l => l.map (fun t => t.a)) ≠
      some [(some 1, some 2, some 3), (some 10, some 10, some 10)] := by
  refine ⟨c2_eval_aux, ?_⟩
  rw [c2_eval_aux]
  intro hcontra
  simp only [Option.map_some', List.map_cons, List.map_nil] at hcontra
  have h2 := Option.some.inj hcontra
  simp only [List.cons.injEq, Prod.mk.injEq, Option.some.injEq] at h2
  exact absurd h2.1.1 (by norm_num)

/-- Failing input for claim C8: a single vertex whose x attribute is the
unparsable string abc, with y 1 and z 2, referenced by one triangle. -/
def c8doc : Model3MF :=
  ⟨none,
   [⟨some ⟨some [⟨someStr "abc", someStr "1", someStr "2"⟩],
          some [⟨someStr "0", someStr "0", someStr "0"⟩]⟩, none⟩]⟩

unseal Rat.mul Rat.add Rat.sub Rat.inv Rat.ofScientific in
theorem c8_eval_aux :
    parse3MF c8doc =
      some [⟨(none, some 1, some 2), (none, some 1, some 2), (none, some 1, some 2)⟩] := by
  decide

/-- Counterexample to claim C8 as stated: an x attribute that does not
parse as a number does not default to 0 — parseFloat returns NaN and the
emitted triangle carries a NaN x coordinate (the claim asserts no NaN
coordinate is ever produced this way). -/
theorem parse3MF_unparsable_vertex_attr_nan :
    parse3MF c8doc =
      some [⟨(none, some 1, some 2), (none, some 1, some 2), (none, some 1, some 2)⟩] ∧
    (∀ l, parse3MF c8doc = some l → ¬ ∀ t ∈ l, t.a.1 ≠ none) := by
  refine ⟨c8_eval_aux, ?_⟩
  intro l hl hall
  rw [c8_eval_aux] at hl
  cases Option.some.inj hl
  exact hall _ (List.mem_singleton_self _) rfl

/-- Counterexample to claim C4 as stated: on an empty buffer the binary
variant does not return zero triangles — the 4-byte count read at offset
80 is out of bounds and throws a RangeError (`none`). -/
theorem parseBinarySTL_empty_buffer_throws :
    parseBinarySTL [] = none ∧ parseBinarySTL [] ≠ some [] := by
  constructor <;> decide

/-- A well-formed binary buffer with a zero triangle count: an 80-byte
header followed by the 4-byte count 0. -/
def binZeroBuffer : Bytes := List.replicate 80 0 ++ [0, 0, 0, 0]

/-- Claim C4 (amended): the text variant returns zero triangles on empty
and header-only input; the binary variant throws a RangeError (`none`) on
empty and 80-byte header-only buffers, which the caller catches as a
per-file failure; it returns zero triangles on a well-formed buffer with
count 0; and the caller converts a zero-triangle result of the STL path
into a per-file failure (`none`). -/
theorem stl_empty_and_header_only_behavior :
    parseASCIISTL [] = [] ∧
    parseASCIISTL ("solid test".data) = [] ∧
    parseBinarySTL [] = none ∧
    parseBinarySTL (List.replicate 80 0) = none ∧
    parseBinarySTL binZeroBuffer = some [] ∧
    (∀ (unit : STLUnit) (f : JsFile),
      (".stl".data).isSuffixOf (toLowerStr f.name) = true →
      stlTriangles f.buffer = some [] →
      processFile unit f = none) := by
  refine ⟨by decide, by decide, by decide, by decide, by decide, ?_⟩
  intro unit f hext htris
  simp [processFile, hext, htris]

/-- Witness for C4 at a concrete file: an STL-named file whose buffer is
a well-formed binary mesh with zero triangles is dropped by processFile. -/
theorem stl_empty_and_header_only_behavior_witness :
    processFile STLUnit.mm ⟨"a.stl".data, binZeroBuffer, Except.error ()⟩ = none :=
  stl_empty_and_header_only_behavior.2.2.2.2.2 STLUnit.mm
    ⟨"a.stl".data, binZeroBuffer, Except.error ()⟩ (by decide) (by decide)

/-- Counterexample to claim C6 as stated: for a unit string outside the
fixed table the lookup yields `undefined` and the multiplication yields
NaN (`none`), not the claimed no-op value 5. -/
theorem toMillimeters_unknown_unit_not_noop :
    toMillimetersRuntime 5 ("micron".data) = none ∧
    toMillimetersRuntime 5 ("micron".data) ≠ some 5 := by
  constructor <;> decide

/-- Claim C6 (amended): toMillimeters multiplies by the fixed table factor
(mm 1, cm 10, inch 25.4); its declared unit type admits only those three
keys, and under runtime semantics the two agree on them, while a unit
string outside the table gives NaN (`none`), never a fallback factor 1. -/
theorem toMillimeters_table_and_unknown_unit :
    (∀ v : ℚ, toMillimeters v .mm = v * 1 ∧ toMillimeters v .cm = v * 10 ∧
      toMillimeters v .inch = v * 25.4) ∧
    (∀ (v : ℚ) (u : STLUnit), toMillimetersRuntime v (stlUnitKey u) = some (toMillimeters v u)) ∧
    (∀ (v : ℚ) (u : Str), conversionsRuntime u = none → toMillimetersRuntime v u = none) := by
  refine ⟨fun v => ⟨rfl, rfl, rfl⟩, fun v u => ?_, fun v u h => ?_⟩
  · cases u <;> rfl
  · simp [toMillimetersRuntime, h]

/-- Witness for C6 at a concrete out-of-table unit string. -/
theorem toMillimeters_table_and_unknown_unit_witness :
    toMillimetersRuntime 5 ("meter".data) = none :=
  toMillimeters_table_and_unknown_unit.2.2 5 ("meter".data) (by decide)

/-- Counterexample to claim C7 as stated: the unrecognized input abc does
not map to 0 — Number yields NaN for its single colon-part, and the code
returns that NaN (`none`). -/
theorem parseTime_unrecognized_not_zero :
    parseTime ("abc".data) = none ∧ parseTime ("abc".data) ≠ some 0 := by
  constructor <;> decide

/-- Counterexample to claim C9 as stated: a batch consisting of one file
of unsupported type completes with an alert and delivers no result list at
all (`none`), rather than delivering the empty list of successes. -/
theorem handleFiles_all_invalid_batch_alerts :
    handleFiles STLUnit.mm [⟨"a.txt".data, [], Except.error ()⟩] = none ∧
    handleFiles STLUnit.mm [⟨"a.txt".data, [], Except.error ()⟩] ≠ some [] := by
  constructor
  · rfl
  · intro h
    exact Option.noConfusion (by rw [← h]; rfl : (none : Option (List FileData)) = some [])

theorem digitsToNat_nil : digitsToNat [] = 0 := rfl

theorem isDigitC_not_ws {c : Char} (h : isDigitC c = true) : isWSChar c = false := by
  simp only [isDigitC, decide_eq_true_eq] at h
  simp only [isWSChar, Bool.or_eq_false_iff, decide_eq_false_iff_not]
  refine ⟨⟨⟨?_, ?_⟩, ?_⟩, ?_⟩ <;> (rintro rfl; revert h; decide)

theorem dropWhile_of_all_neg {p : Char → Bool} {l : Str} (h : ∀ c ∈ l, p c = false) :
    l.dropWhile p = l := by
  cases l with
  | nil => rfl
  | cons a t => simp [List.dropWhile_cons, h a (List.mem_cons_self a t)]

theorem trimWS_of_digits {s : Str} (h : ∀ c ∈ s, isDigitC c = true) : trimWS s = s := by
  unfold trimWS
  rw [dropWhile_of_all_neg (fun c hc => isDigitC_not_ws (h c hc)),
    dropWhile_of_all_neg (fun c hc => isDigitC_not_ws (h c (List.mem_reverse.mp hc))),
    List.reverse_reverse]

theorem digitChar_toNat {d : ℕ} (h : d < 10) : (digitChar d).toNat = 48 + d := by
  interval_cases d <;> decide

theorem isDigitC_digitChar {d : ℕ} (h : d < 10) : isDigitC (digitChar d) = true := by
  interval_cases d <;> decide

theorem natToChars_all_digits (n : ℕ) : ∀ c ∈ natToChars n, isDigitC c = true := by
  induction n using Nat.strong_induction_on with
  | _ n ih =>
    rw [natToChars]
    split
    · intro c hc
      rw [List.mem_singleton] at hc
      subst hc
      exact isDigitC_digitChar (by omega)
    · intro c hc
      rw [List.mem_append] at hc
      rcases hc with hc | hc
      · exact ih (n / 10) (Nat.div_lt_self (by omega) (by norm_num)) c hc
      · rw [List.mem_singleton] at hc
        subst hc
        exact isDigitC_digitChar (Nat.mod_lt _ (by norm_num))

theorem natToChars_ne_nil (n : ℕ) : natToChars n ≠ [] := by
  rw [natToChars]
  split
  · simp
  · simp

theorem digitsToNat_append_digit (xs : Str) (c : Char) :
    digitsToNat (xs ++ [c]) = 10 * digitsToNat xs + (c.toNat - 48) := by
  unfold digitsToNat
  rw [List.foldl_append]
  rfl

theorem digitsToNat_natToChars (n : ℕ) : digitsToNat (natToChars n) = n := by
  induction n using Nat.strong_induction_on with
  | _ n ih =>
    rw [natToChars]
    split
    · rename_i h
      show 10 * 0 + ((digitChar n).toNat - 48) = n
      rw [digitChar_toNat h]
      omega
    · rename_i h
      rw [digitsToNat_append_digit, ih (n / 10) (Nat.div_lt_self (by omega) (by norm_num)),
        digitChar_toNat (Nat.mod_lt _ (by norm_num))]
      omega

theorem digitsToNat_cons_zero (s : Str) : digitsToNat ('0' :: s) = digitsToNat s := rfl

theorem padStart2_digits {s : Str} (h : ∀ c ∈ s, isDigitC c = true) :
    ∀ c ∈ padStart2 s, isDigitC c = true := by
  unfold padStart2
  split
  · intro c hc
    rw [List.mem_append] at hc
    rcases hc with hc | hc
    · rw [List.eq_of_mem_replicate hc]
      decide
    · exact h c hc
  · exact h

theorem padStart2_ne_nil {s : Str} (h : s ≠ []) : padStart2 s ≠ [] := by
  unfold padStart2
  split
  · simp [h]
  · exact h

theorem digitsToNat_replicate_zero (k : ℕ) (s : Str) :
    digitsToNat (List.replicate k '0' ++ s) = digitsToNat s := by
  induction k with
  | zero => rfl
  | succ k ih => rw [List.replicate_succ, List.cons_append, digitsToNat_cons_zero, ih]

theorem digitsToNat_padStart2 (s : Str) : digitsToNat (padStart2 s) = digitsToNat s := by
  unfold padStart2
  split
  · exact digitsToNat_replicate_zero _ s
  · rfl

theorem not_colon_of_digits {s : Str} (h : ∀ c ∈ s, isDigitC c = true) : ':' ∉ s := by
  intro hm
  exact absurd (h _ hm) (by decide)

theorem jsNumUnsigned_digits {ds : Str} (h1 : ds ≠ []) (h2 : ∀ c ∈ ds, isDigitC c = true) :
    jsNumUnsigned ds = some ((digitsToNat ds : ℚ)) := by
  have ht : ds.takeWhile isDigitC = ds := List.takeWhile_eq_self_iff.mpr h2
  have hd : ds.dropWhile isDigitC = [] := List.dropWhile_eq_nil_iff.mpr h2
  simp only [jsNumUnsigned, ht, hd, fracSplit]
  rw [if_neg (fun hand => h1 hand.1)]
  norm_num [digitsToNat_nil]

theorem jsNumber_digits {ds : Str} (h1 : ds ≠ []) (h2 : ∀ c ∈ ds, isDigitC c = true) :
    jsNumber ds = some ((digitsToNat ds : ℚ)) := by
  have htrim : trimWS ds = ds := trimWS_of_digits h2
  simp only [jsNumber, htrim, if_neg h1]
  obtain ⟨c, r, rfl⟩ : ∃ c r, ds = c :: r := by
    cases ds with
    | nil => exact absurd rfl h1
    | cons c r => exact ⟨c, r, rfl⟩
  have hc := h2 c (List.mem_cons_self c r)
  have hcm : c ≠ '-' := fun he => absurd (he ▸ hc) (by decide)
  have hcp : c ≠ '+' := fun he => absurd (he ▸ hc) (by decide)
  simp only [jsNumSigned, if_neg hcm, if_neg hcp]
  exact jsNumUnsigned_digits h1 h2

theorem jsPFUnsigned_digits {ds : Str} (h1 : ds ≠ []) (h2 : ∀ c ∈ ds, isDigitC c = true) :
    jsPFUnsigned ds = some ((digitsToNat ds : ℚ)) := by
  have ht : ds.takeWhile isDigitC = ds := List.takeWhile_eq_self_iff.mpr h2
  have hd : ds.dropWhile isDigitC = [] := List.dropWhile_eq_nil_iff.mpr h2
  simp only [jsPFUnsigned, ht, hd, fracSplit]
  rw [if_neg (fun hand => h1 hand.1)]
  norm_num [digitsToNat_nil, pfExponent]

theorem jsParseFloat_digits {ds : Str} (h1 : ds ≠ []) (h2 : ∀ c ∈ ds, isDigitC c = true) :
    jsParseFloat ds = some ((digitsToNat ds : ℚ)) := by
  have hdrop : ds.dropWhile isWSChar = ds :=
    dropWhile_of_all_neg (fun c hc => isDigitC_not_ws (h2 c hc))
  obtain ⟨c, r, rfl⟩ : ∃ c r, ds = c :: r := by
    cases ds with
    | nil => exact absurd rfl h1
    | cons c r => exact ⟨c, r, rfl⟩
  have hc := h2 c (List.mem_cons_self c r)
  have hcm : c ≠ '-' := fun he => absurd (he ▸ hc) (by decide)
  have hcp : c ≠ '+' := fun he => absurd (he ▸ hc) (by decide)
  unfold jsParseFloat
  rw [hdrop]
  simp only [if_neg hcm, if_neg hcp]
  exact jsPFUnsigned_digits h1 h2

theorem splitChar_ne_nil (sep : Char) (s : Str) : splitChar sep s ≠ [] := by
  induction s with
  | nil => simp [splitChar]
  | cons c rest ih =>
    simp only [splitChar]
    cases h : splitChar sep rest with
    | nil => exact absurd h ih
    | cons hh tt => by_cases hc : c = sep <;> simp [hc]

theorem splitChar_no_sep {sep : Char} {a : Str} (h : sep ∉ a) : splitChar sep a = [a] := by
  induction a with
  | nil => rfl
  | cons c rest ih =>
    have hc : c ≠ sep := fun he => h (he ▸ List.mem_cons_self c rest)
    have h2 : sep ∉ rest := fun hm => h (List.mem_cons_of_mem _ hm)
    simp only [splitChar, ih h2, if_neg hc]

theorem splitChar_append {sep : Char} {a : Str} (r : Str) (h : sep ∉ a) :
    splitChar sep (a ++ sep :: r) = a :: splitChar sep r := by
  induction a with
  | nil =>
    simp only [List.nil_append, splitChar]
    cases hsr : splitChar sep r with
    | nil => exact absurd hsr (splitChar_ne_nil sep r)
    | cons hh tt => simp
  | cons c rest ih =>
    have hc : c ≠ sep := fun he => h (he ▸ List.mem_cons_self c rest)
    have h2 : sep ∉ rest := fun hm => h (List.mem_cons_of_mem _ hm)
    have hstep : splitChar sep ((c :: rest) ++ sep :: r) =
        match splitChar sep (rest ++ sep :: r) with
        | [] => [[]]
        | hh :: tt => if c = sep then [] :: hh :: tt else (c :: hh) :: tt := rfl
    rw [hstep, ih h2]
    simp [hc]

theorem parseTime_three (a b c : Str) (ha : ':' ∉ a) (hb : ':' ∉ b) (hc : ':' ∉ c) :
    parseTime (a ++ ':' :: (b ++ ':' :: c)) =
      jadd (jadd (jmul (jsNumber a) (some 3600)) (jmul (jsNumber b) (some 60))) (jsNumber c) := by
  unfold parseTime
  rw [splitChar_append _ ha, splitChar_append _ hb, splitChar_no_sep hc]
  rfl

theorem parseTime_two (a b : Str) (ha : ':' ∉ a) (hb : ':' ∉ b) :
    parseTime (a ++ ':' :: b) = jadd (jmul (jsNumber a) (some 60)) (jsNumber b) := by
  unfold parseTime
  rw [splitChar_append _ ha, splitChar_no_sep hb]
  rfl

theorem parseTime_one (a : Str) (ha : ':' ∉ a) : parseTime a = jsNumber a := by
  unfold parseTime
  rw [splitChar_no_sep ha]
  rfl

/-- Claim C10: formatTime renders any nonnegative integer seconds count as
zero-padded colon-separated fields and parseTime recovers it exactly. -/
theorem parseTime_formatTime_roundtrip (s : ℕ) :
    parseTime (formatTime s) = some ((s : ℕ) : ℚ) := by
  have hAd := padStart2_digits (natToChars_all_digits (s / 3600))
  have hBd := padStart2_digits (natToChars_all_digits (s % 3600 / 60))
  have hCd := padStart2_digits (natToChars_all_digits (s % 60))
  have hAne := padStart2_ne_nil (natToChars_ne_nil (s / 3600))
  have hBne := padStart2_ne_nil (natToChars_ne_nil (s % 3600 / 60))
  have hCne := padStart2_ne_nil (natToChars_ne_nil (s % 60))
  unfold formatTime
  rw [parseTime_three _ _ _ (not_colon_of_digits hAd) (not_colon_of_digits hBd)
      (not_colon_of_digits hCd),
    jsNumber_digits hAne hAd, jsNumber_digits hBne hBd, jsNumber_digits hCne hCd]
  simp only [jmul, jadd, digitsToNat_padStart2, digitsToNat_natToChars]
  congr 1
  have key : s / 3600 * 3600 + s % 3600 / 60 * 60 + s % 60 = s := by omega
  exact_mod_cast congrArg (fun n : ℕ => (n : ℚ)) key

/-- Claim C7 (amended): parseTime maps the three recognized numeric
layouts as claimed and maps four or more colon fields to 0, but an input
with at most three fields any of which Number cannot parse yields NaN
(`none`), not 0 — abc being a concrete such input. -/
theorem parseTime_formats_and_nan :
    (∀ h m s : ℕ, parseTime (natToChars h ++ ':' :: (natToChars m ++ ':' :: natToChars s)) =
      some ((h : ℚ) * 3600 + (m : ℚ) * 60 + (s : ℚ))) ∧
    (∀ m s : ℕ, parseTime (natToChars m ++ ':' :: natToChars s) =
      some ((m : ℚ) * 60 + (s : ℚ))) ∧
    (∀ n : ℕ, parseTime (natToChars n) = some ((n : ℕ) : ℚ)) ∧
    (∀ ts : Str, 4 ≤ (splitChar ':' ts).length → parseTime ts = some 0) ∧
    parseTime ("abc".data) = none := by
  refine ⟨?_, ?_, ?_, ?_, by decide⟩
  · intro h m s
    rw [parseTime_three _ _ _ (not_colon_of_digits (natToChars_all_digits h))
        (not_colon_of_digits (natToChars_all_digits m))
        (not_colon_of_digits (natToChars_all_digits s)),
      jsNumber_digits (natToChars_ne_nil _) (natToChars_all_digits _),
      jsNumber_digits (natToChars_ne_nil _) (natToChars_all_digits _),
      jsNumber_digits (natToChars_ne_nil _) (natToChars_all_digits _)]
    simp only [jmul, jadd, digitsToNat_natToChars]
  · intro m s
    rw [parseTime_two _ _ (not_colon_of_digits (natToChars_all_digits m))
        (not_colon_of_digits (natToChars_all_digits s)),
      jsNumber_digits (natToChars_ne_nil _) (natToChars_all_digits _),
      jsNumber_digits (natToChars_ne_nil _) (natToChars_all_digits _)]
    simp only [jmul, jadd, digitsToNat_natToChars]
  · intro n
    rw [parseTime_one _ (not_colon_of_digits (natToChars_all_digits n)),
      jsNumber_digits (natToChars_ne_nil _) (natToChars_all_digits _), digitsToNat_natToChars]
  · intro ts hlen
    have hl2 : 4 ≤ ((splitChar ':' ts).map jsNumber).length := by
      rw [List.length_map]; exact hlen
    simp only [parseTime]
    generalize (splitChar ':' ts).map jsNumber = ps at hl2 ⊢
    rcases ps with _ | ⟨a, _ | ⟨b, _ | ⟨c, _ | ⟨d, rest⟩⟩⟩⟩
    · simp at hl2
    · simp at hl2
    · simp at hl2
    · simp at hl2
    · rfl

/-- Witness for C7 at a concrete four-field input. -/
theorem parseTime_formats_and_nan_witness :
    parseTime ("1:2:3:4".data) = some 0 :=
  parseTime_formats_and_nan.2.2.2.1 ("1:2:3:4".data) (by decide)

/-- Claim C8 (amended): a vertex coordinate defaults to 0 when its
attribute is absent or the empty string; a digit-string attribute parses
to its value; but a non-numeric attribute yields NaN (`none`), not 0; and
the vertex decode of parse3MF reads exactly the three attributes this
way. -/
theorem vertexCoord_defaults :
    vertexCoord none = some 0 ∧
    vertexCoord (some []) = some 0 ∧
    (∀ n : ℕ, vertexCoord (some (natToChars n)) = some ((n : ℕ) : ℚ)) ∧
    vertexCoord (some ("abc".data)) = none ∧
    (∀ v : Vertex3MF, decodeVertex v = (vertexCoord v.x?, vertexCoord v.y?, vertexCoord v.z?)) := by
  have h0 : jsParseFloat ("0".data) = some ((digitsToNat ("0".data) : ℚ)) :=
    jsParseFloat_digits (by decide) (by decide)
  have hz : digitsToNat ("0".data) = 0 := rfl
  refine ⟨?_, ?_, ?_, by decide, fun v => rfl⟩
  · show jsParseFloat ("0".data) = some 0
    rw [h0, hz]
    norm_num
  · show jsParseFloat ("0".data) = some 0
    rw [h0, hz]
    norm_num
  · intro n
    show jsParseFloat (jsOr (some (natToChars n)) ("0".data)) = some ((n : ℕ) : ℚ)
    rw [show jsOr (some (natToChars n)) ("0".data) = natToChars n from by
      simp [jsOr, natToChars_ne_nil n]]
    rw [jsParseFloat_digits (natToChars_ne_nil n) (natToChars_all_digits n),
      digitsToNat_natToChars]

theorem cross_eq_zero_iff_dep (w1 w2 : Vec3) :
    crossOf w1 w2 = ((0 : ℚ), (0 : ℚ), (0 : ℚ)) ↔
      ∃ (v : Vec3) (p q : ℚ), w1 = p • v ∧ w2 = q • v := by
  obtain ⟨u1, u2, u3⟩ := w1
  obtain ⟨v1, v2, v3⟩ := w2
  simp only [crossOf, Prod.mk.injEq]
  constructor
  · rintro ⟨h1, h2, h3⟩
    by_cases hu1 : u1 = 0
    · by_cases hu2 : u2 = 0
      · by_cases hu3 : u3 = 0
        · subst hu1
          subst hu2
          subst hu3
          exact ⟨(v1, v2, v3), 0, 1, by simp [Prod.smul_mk], by simp [Prod.smul_mk]⟩
        · subst hu1
          subst hu2
          have hv1 : v1 = 0 := by
            have h4 : u3 * v1 = 0 := by linarith [h2]
            rcases mul_eq_zero.mp h4 with h5 | h5
            · exact absurd h5 hu3
            · exact h5
          have hv2 : v2 = 0 := by
            have h4 : u3 * v2 = 0 := by linarith [h1]
            rcases mul_eq_zero.mp h4 with h5 | h5
            · exact absurd h5 hu3
            · exact h5
          refine ⟨(0, 0, u3), 1, v3 / u3, by simp [Prod.smul_mk], ?_⟩
          simp only [Prod.smul_mk, smul_eq_mul, Prod.mk.injEq, mul_zero]
          exact ⟨hv1, hv2, by field_simp⟩
      · subst hu1
        have hv1 : v1 = 0 := by
          have h4 : u2 * v1 = 0 := by linarith [h3]
          rcases mul_eq_zero.mp h4 with h5 | h5
          · exact absurd h5 hu2
          · exact h5
        refine ⟨(0, u2, u3), 1, v2 / u2, by simp [Prod.smul_mk], ?_⟩
        simp only [Prod.smul_mk, smul_eq_mul, Prod.mk.injEq, mul_zero]
        refine ⟨hv1, by field_simp, ?_⟩
        field_simp
        linear_combination h1
    · refine ⟨(u1, u2, u3), 1, v1 / u1, by simp [Prod.smul_mk], ?_⟩
      simp only [Prod.smul_mk, smul_eq_mul, Prod.mk.injEq]
      refine ⟨by field_simp, ?_, ?_⟩
      · field_simp
        linear_combination h3
      · field_simp
        linear_combination -h2
  · rintro ⟨⟨x1, x2, x3⟩, p, q, h1, h2⟩
    simp only [Prod.smul_mk, smul_eq_mul, Prod.mk.injEq] at h1 h2
    obtain ⟨e1, e2, e3⟩ := h1
    obtain ⟨f1, f2, f3⟩ := h2
    subst e1 e2 e3 f1 f2 f3
    refine ⟨by ring, by ring, by ring⟩

theorem triBA_eq_sub (t : Triangle) : triBA t = t.b - t.a := rfl

theorem triCA_eq_sub (t : Triangle) : triCA t = t.c - t.a := rfl

theorem degenerate_iff_cross (t : Triangle) :
    Degenerate t ↔ crossOf (triBA t) (triCA t) = ((0 : ℚ), (0 : ℚ), (0 : ℚ)) := by
  rw [cross_eq_zero_iff_dep, triBA_eq_sub, triCA_eq_sub]
  unfold Degenerate
  rw [collinear_iff_of_mem (Set.mem_insert t.a _)]
  constructor
  · rintro ⟨v, hv⟩
    obtain ⟨p, hp⟩ := hv t.b (by simp)
    obtain ⟨q, hq⟩ := hv t.c (by simp)
    rw [vadd_eq_add] at hp hq
    exact ⟨v, p, q, by rw [hp]; ring, by rw [hq]; ring⟩
  · rintro ⟨v, p, q, hb, hc⟩
    refine ⟨v, ?_⟩
    intro x hx
    rcases hx with hx | hx | hx
    · exact ⟨0, by simp [hx]⟩
    · refine ⟨p, ?_⟩
      rw [vadd_eq_add, hx, ← hb]
      ring
    · rw [Set.mem_singleton_iff] at hx
      refine ⟨q, ?_⟩
      rw [vadd_eq_add, hx, ← hc]
      ring

theorem sum_sq_eq_zero_iff (x y z : ℚ) :
    x ^ 2 + y ^ 2 + z ^ 2 = 0 ↔ x = 0 ∧ y = 0 ∧ z = 0 := by
  constructor
  · intro h
    refine ⟨?_, ?_, ?_⟩ <;> nlinarith [sq_nonneg x, sq_nonneg y, sq_nonneg z]
  · rintro ⟨rfl, rfl, rfl⟩
    ring

theorem calculateTriangleArea_nonneg (t : Triangle) : 0 ≤ calculateTriangleArea t := by
  unfold calculateTriangleArea
  positivity

theorem calculateTriangleArea_eq_zero_iff (t : Triangle) :
    calculateTriangleArea t = 0 ↔
      crossOf (triBA t) (triCA t) = ((0 : ℚ), (0 : ℚ), (0 : ℚ)) := by
  unfold calculateTriangleArea
  rcases hcross : crossOf (triBA t) (triCA t) with ⟨cx, cy, cz⟩
  show 0.5 * Real.sqrt (((cx ^ 2 + cy ^ 2 + cz ^ 2 : ℚ) : ℝ)) = 0 ↔
    ((cx, cy, cz) : Vec3) = (0, 0, 0)
  rw [mul_eq_zero, or_iff_right (by norm_num : ¬(0.5 : ℝ) = 0), Real.sqrt_eq_zero']
  have hcast : ((cx ^ 2 + cy ^ 2 + cz ^ 2 : ℚ) : ℝ) ≤ 0 ↔ (cx ^ 2 + cy ^ 2 + cz ^ 2 : ℚ) ≤ 0 := by
    exact_mod_cast Iff.rfl
  constructor
  · intro hle
    have h0 : cx ^ 2 + cy ^ 2 + cz ^ 2 = 0 :=
      le_antisymm (hcast.mp hle) (by positivity)
    obtain ⟨hx, hy, hz⟩ := (sum_sq_eq_zero_iff cx cy cz).mp h0
    simp [hx, hy, hz]
  · intro heq
    simp only [Prod.mk.injEq] at heq
    obtain ⟨hx, hy, hz⟩ := heq
    apply hcast.mpr
    rw [hx, hy, hz]
    norm_num

theorem cross_convert_eq (u : STLUnit) (t : Triangle) :
    ∃ k : ℚ, k ≠ 0 ∧
      crossOf (triBA (convertTriangle u t)) (triCA (convertTriangle u t)) =
        (k * (crossOf (triBA t) (triCA t)).1,
         k * (crossOf (triBA t) (triCA t)).2.1,
         k * (crossOf (triBA t) (triCA t)).2.2) := by
  obtain ⟨⟨a1, a2, a3⟩, ⟨b1, b2, b3⟩, ⟨c1, c2, c3⟩⟩ := t
  cases u
  · refine ⟨1, one_ne_zero, ?_⟩
    simp only [convertTriangle, toMillimeters, crossOf, triBA, triCA, Prod.mk.injEq]
    refine ⟨by ring, by ring, by ring⟩
  · refine ⟨100, by norm_num, ?_⟩
    simp only [convertTriangle, toMillimeters, crossOf, triBA, triCA, Prod.mk.injEq]
    refine ⟨by ring, by ring, by ring⟩
  · refine ⟨25.4 ^ 2, by norm_num, ?_⟩
    simp only [convertTriangle, toMillimeters, crossOf, triBA, triCA, Prod.mk.injEq]
    refine ⟨by ring, by ring, by ring⟩

theorem cross_convert_zero_iff (u : STLUnit) (t : Triangle) :
    crossOf (triBA (convertTriangle u t)) (triCA (convertTriangle u t)) =
      ((0 : ℚ), (0 : ℚ), (0 : ℚ)) ↔
    crossOf (triBA t) (triCA t) = ((0 : ℚ), (0 : ℚ), (0 : ℚ)) := by
  obtain ⟨k, hk, heq⟩ := cross_convert_eq u t
  rw [heq]
  rcases hc : crossOf (triBA t) (triCA t) with ⟨x, y, z⟩
  simp [Prod.mk.injEq, mul_eq_zero, hk]

theorem area_conv_zero_iff_degenerate (u : STLUnit) (t : Triangle) :
    calculateTriangleArea (convertTriangle u t) = 0 ↔ Degenerate t := by
  rw [calculateTriangleArea_eq_zero_iff, cross_convert_zero_iff, ← degenerate_iff_cross]

theorem list_sum_eq_zero_iff_of_nonneg {l : List ℝ} (h : ∀ x ∈ l, 0 ≤ x) :
    l.sum = 0 ↔ ∀ x ∈ l, x = 0 := by
  induction l with
  | nil => simp
  | cons a t ih =>
    have ha := h a (List.mem_cons_self a t)
    have ht : ∀ x ∈ t, 0 ≤ x := fun x hx => h x (List.mem_cons_of_mem _ hx)
    rw [List.sum_cons, add_eq_zero_iff_of_nonneg ha (List.sum_nonneg ht), ih ht]
    simp [List.forall_mem_cons]

/-- Claim C5: calculateSurfaceArea is deterministic (it is a function of
its arguments), non-negative, and zero exactly when the list is empty or
every triangle is degenerate (collinear or coincident vertices). -/
theorem calculateSurfaceArea_nonneg_zero_iff_degenerate (triangles : List Triangle)
    (unit : STLUnit) :
    0 ≤ calculateSurfaceArea triangles unit ∧
    (calculateSurfaceArea triangles unit = 0 ↔
      (triangles = [] ∨ ∀ t ∈ triangles, Degenerate t)) := by
  unfold calculateSurfaceArea mm2ToDm2
  have hmem : ∀ x ∈ triangles.map (fun t => calculateTriangleArea (convertTriangle unit t)),
      0 ≤ x := by
    intro x hx
    obtain ⟨t, _, rfl⟩ := List.mem_map.mp hx
    exact calculateTriangleArea_nonneg _
  have hsum := List.sum_nonneg hmem
  constructor
  · exact div_nonneg hsum (by norm_num)
  · rw [div_eq_zero_iff, or_iff_left (by norm_num : (10000 : ℝ) ≠ 0),
      list_sum_eq_zero_iff_of_nonneg hmem]
    constructor
    · intro h
      right
      intro t ht
      exact (area_conv_zero_iff_degenerate unit t).mp
        (h _ (List.mem_map.mpr ⟨t, ht, rfl⟩))
    · rintro (rfl | h)
      · simp
      · intro x hx
        obtain ⟨t, ht, rfl⟩ := List.mem_map.mp hx
        exact (area_conv_zero_iff_degenerate unit t).mpr (h t ht)

/-- Claim C9 (amended): in any batch that still contains a
supported-extension file after removing f, a file f whose processing fails
(unsupported type or any caught parse failure) contributes nothing and
does not alter the others: removing it leaves the delivered output
unchanged, the batch completes, and the output is exactly the successful
FileData of the supported files, in order. -/
theorem handleFiles_failure_isolated (unit : STLUnit) (pre post : List JsFile) (f : JsFile)
    (hfail : processFile unit f = none)
    (hrest : (pre ++ post).filter validFile ≠ []) :
    handleFiles unit (pre ++ f :: post) = handleFiles unit (pre ++ post) ∧
    handleFiles unit (pre ++ post) =
      some (((pre ++ post).filter validFile).filterMap (processFile unit)) := by
  have hcomp : ∀ l : List JsFile,
      (l.map (processFile unit)).filterMap id = l.filterMap (processFile unit) := by
    intro l
    induction l with
    | nil => rfl
    | cons a t ih =>
      rw [List.map_cons, List.filterMap_cons, List.filterMap_cons]
      cases processFile unit a <;> simp [ih]
  have hlen : ¬ ((pre ++ post).filter validFile).length = 0 := by
    rw [List.length_eq_zero]
    exact hrest
  have h2 : handleFiles unit (pre ++ post) =
      some (((pre ++ post).filter validFile).filterMap (processFile unit)) := by
    unfold handleFiles
    rw [if_neg hlen, hcomp]
  refine ⟨?_, h2⟩
  by_cases hv : validFile f = true
  · have hfil : (pre ++ f :: post).filter validFile =
        pre.filter validFile ++ f :: post.filter validFile := by
      rw [List.filter_append, List.filter_cons, if_pos hv]
    have hlen1 : ¬ ((pre ++ f :: post).filter validFile).length = 0 := by
      rw [hfil]
      simp
    unfold handleFiles
    rw [if_neg hlen1, if_neg hlen, hcomp, hcomp, hfil, List.filter_append,
      List.filterMap_append, List.filterMap_append, List.filterMap_cons, hfail]
  · have hfil : (pre ++ f :: post).filter validFile = (pre ++ post).filter validFile := by
      rw [List.filter_append, List.filter_cons, if_neg hv, ← List.filter_append]
    unfold handleFiles
    rw [hfil]

/-- A concrete unsupported-extension file. -/
def c9txtFile : JsFile := ⟨"a.txt".data, [], Except.error ()⟩

/-- A concrete supported STL file (its empty buffer fails parsing, but its
extension keeps it in the batch). -/
def c9stlFile : JsFile := ⟨"b.stl".data, [], Except.error ()⟩

/-- Witness for C9 at a concrete two-file batch. -/
theorem handleFiles_failure_isolated_witness :
    handleFiles STLUnit.mm [c9stlFile, c9txtFile] = handleFiles STLUnit.mm [c9stlFile] ∧
    handleFiles STLUnit.mm [c9stlFile] =
      some ((([c9stlFile] : List JsFile).filter validFile).filterMap (processFile STLUnit.mm)) :=
  handleFiles_failure_isolated STLUnit.mm [c9stlFile] [] c9txtFile rfl
    (by
      intro h
      rw [show List.filter validFile ([c9stlFile] ++ []) = [c9stlFile] from rfl] at h
      exact List.cons_ne_nil _ _ h)
